import Mathlib

/-!
Shallow embedding of the argument-based core of
`Vending-Machine-Management-System/project.py` (the six helper functions
`input_positive_integer_arg`, `add_to_cart_arg`, `adjust_quantity_arg`,
`adjust_item_price_arg`, `manage_cart_arg`, `confirm_purchase_arg`), together
with theorems settling the frozen claims about them.

Python dicts `{code: {"Name": .., "Price": .., "Quantity": ..}}` are embedded
as association lists with unique keys (a Python dict can never hold two
entries with the same key); dict assignment updates the existing entry in
place or appends a fresh one, `del` removes the entry, `.get` with a default
is `getQty`.  Python `KeyError`/`ValueError` become the `Err` inductive,
carrying the exact message string of the source.  Functions that mutate their
arguments in place are embedded as functions returning the state as it is at
the moment the function returns or raises, so that partial-mutation claims
are statable.  The nondeterministic `str(uuid.uuid4())` of
`confirm_purchase_arg` is a parameter (a list of characters); `[:8]` is
`List.take 8`.
-/

namespace Vending

/-- An inventory / cart record `{"Name": .., "Price": .., "Quantity": ..}`.
Prices are Python floats used only for sign tests and copying; embedded as `Rat`. -/
structure Record where
  Name : String
  Price : Rat
  Quantity : Int
deriving DecidableEq

/-- A Python dict mapping item codes to records (keys unique in any state that
models an actual dict). -/
abbrev Map := List (Int × Record)

/-- Dict lookup: `m[k]` / `k in m`, as an `Option`. -/
def lookupEntry : Map → Int → Option Record
  | [], _ => none
  | (k0, v) :: rest, k => if k = k0 then some v else lookupEntry rest k

/-- Python dict access `m.get(k, dict()).get(Quantity, 0)`. -/
def getQty (m : Map) (k : Int) : Int :=
  match lookupEntry m k with
  | some r => r.Quantity
  | none => 0

/-- The key list of a dict (unique for real dicts). -/
def keys (m : Map) : List Int := m.map Prod.fst

/-- Dict assignment `m[k] = v`: replace the entry if the key is present,
append it otherwise. -/
def setEntry : Map → Int → Record → Map
  | [], k, v => [(k, v)]
  | (k0, v0) :: rest, k, v =>
    if k0 = k then (k, v) :: rest else (k0, v0) :: setEntry rest k v

/-- Dict deletion `del m[k]`. -/
def eraseEntry : Map → Int → Map
  | [], _ => []
  | (k0, v0) :: rest, k => if k0 = k then rest else (k0, v0) :: eraseEntry rest k

/-- The exceptions the core raises: Python `KeyError(msg)` / `ValueError(msg)`. -/
inductive Err where
  | keyError (msg : String)
  | valueError (msg : String)
deriving DecidableEq

/-- Result of a cart operation (`add_to_cart_arg`, `manage_cart_arg`):
the outcome and the two structures as they are when the call returns or
raises.  `err = none` means normal return. -/
structure CartRes where
  err : Option Err
  cart : Map
  inv : Map
deriving DecidableEq

/-- Result of an inventory helper (`adjust_quantity_arg`,
`adjust_item_price_arg`); these never receive a cart. -/
structure InvRes where
  err : Option Err
  inv : Map
deriving DecidableEq

/-- Result of `confirm_purchase_arg`: outcome, returned transaction id
(characters), and both structures at return/raise time. -/
structure PurRes where
  err : Option Err
  tid : Option (List Char)
  cart : Map
  inv : Map
deriving DecidableEq

/-- Function `input_positive_integer_arg(val)` on an already-integer argument:
rejects non-positive values.  (The string-parsing half of the Python
function is IO-shell concern and is not needed by any claim.) -/
def input_positive_integer_arg (val : Int) : Except Err Int :=
  if val ≤ 0 then .error (.valueError "Invalid integer input") else .ok val

/-- Function `add_to_cart_arg(user_cart, inventory_ref, item_code, quantity)`.
Checks membership, positivity, then capacity against
`already_in_cart + quantity`; on success increments the existing cart entry
or inserts a fresh one snapshotting name and price from inventory.
`inventory_ref` is never assigned, so every branch returns it unchanged. -/
def add_to_cart_arg (user_cart inventory_ref : Map) (item_code quantity : Int) :
    CartRes :=
  match lookupEntry inventory_ref item_code with
  | none =>
    ⟨some (.keyError "Item code not found in inventory"), user_cart, inventory_ref⟩
  | some invRec =>
    if quantity ≤ 0 then
      ⟨some (.valueError "Quantity must be positive"), user_cart, inventory_ref⟩
    else
      let available_quantity := invRec.Quantity
      let already_in_cart := getQty user_cart item_code
      if already_in_cart + quantity > available_quantity then
        ⟨some (.valueError "Not enough quantity available"), user_cart, inventory_ref⟩
      else
        match lookupEntry user_cart item_code with
        | some e =>
          ⟨none,
            setEntry user_cart item_code
              { e with Quantity := e.Quantity + quantity },
            inventory_ref⟩
        | none =>
          ⟨none,
            setEntry user_cart item_code
              ⟨invRec.Name, invRec.Price, quantity⟩,
            inventory_ref⟩

/-- Function `adjust_quantity_arg(inventory_ref, item_code, new_quantity)`:
membership check, non-negativity check, then absolute set of the quantity. -/
def adjust_quantity_arg (inventory_ref : Map) (item_code new_quantity : Int) :
    InvRes :=
  match lookupEntry inventory_ref item_code with
  | none => ⟨some (.keyError "Item code not found in inventory"), inventory_ref⟩
  | some r =>
    if new_quantity < 0 then
      ⟨some (.valueError "Quantity cannot be negative"), inventory_ref⟩
    else
      ⟨none, setEntry inventory_ref item_code { r with Quantity := new_quantity }⟩

/-- Function `adjust_item_price_arg(inventory_ref, item_code, new_price)`:
membership check, positivity check, then absolute set of the price. -/
def adjust_item_price_arg (inventory_ref : Map) (item_code : Int)
    (new_price : Rat) : InvRes :=
  match lookupEntry inventory_ref item_code with
  | none => ⟨some (.keyError "Item code not found in inventory"), inventory_ref⟩
  | some r =>
    if new_price ≤ 0 then
      ⟨some (.valueError "Price must be positive"), inventory_ref⟩
    else
      ⟨none, setEntry inventory_ref item_code { r with Price := new_price }⟩

/-- Function `manage_cart_arg(user_cart, inventory_ref, item_code, action, new_quantity=None)`.
`remove` deletes unconditionally; `adjust` validates presence, positivity and
capacity (`inventory_ref.get(item_code, dict()).get(Quantity, 0)`) before the
absolute set; anything else is an invalid action.  `inventory_ref` is never
assigned. -/
def manage_cart_arg (user_cart inventory_ref : Map) (item_code : Int)
    (action : String) (new_quantity : Option Int) : CartRes :=
  match lookupEntry user_cart item_code with
  | none => ⟨some (.keyError "Item not found in user cart"), user_cart, inventory_ref⟩
  | some entry =>
    if action = "remove" then
      ⟨none, eraseEntry user_cart item_code, inventory_ref⟩
    else if action = "adjust" then
      match new_quantity with
      | none =>
        ⟨some (.valueError "new_quantity must be provided for adjustment"),
          user_cart, inventory_ref⟩
      | some nq =>
        if nq ≤ 0 then
          ⟨some (.valueError "Quantity must be positive"), user_cart, inventory_ref⟩
        else
          let available_quantity := getQty inventory_ref item_code
          if nq > available_quantity then
            ⟨some (.valueError "Not enough quantity available"),
              user_cart, inventory_ref⟩
          else
            ⟨none, setEntry user_cart item_code { entry with Quantity := nq },
              inventory_ref⟩
    else
      ⟨some (.valueError "Invalid action. Use 'remove' or 'adjust'"),
        user_cart, inventory_ref⟩

/-- Phase 1 of `confirm_purchase_arg`: the read-only validation loop over the
cart in iteration order, returning the first exception it would raise. -/
def checkCart (inventory_ref : Map) : Map → Option Err
  | [] => none
  | (code, item) :: rest =>
    match lookupEntry inventory_ref code with
    | none =>
      some (.keyError ("Item code " ++ toString code ++ " not found in inventory"))
    | some r =>
      if item.Quantity > r.Quantity then
        some (.valueError ("Not enough item " ++ item.Name ++ " in inventory"))
      else checkCart inventory_ref rest

/-- One statement `inventory_ref[code]['Quantity'] -= q` of the commit loop:
update the record stored at `code` in place (phase 1 has already ensured the
key is present). -/
def decQty : Map → Int → Int → Map
  | [], _, _ => []
  | (k0, v0) :: rest, code, q =>
    if k0 = code then (k0, { v0 with Quantity := v0.Quantity - q }) :: rest
    else (k0, v0) :: decQty rest code q

/-- Phase 2 of `confirm_purchase_arg`: the commit loop over the cart. -/
def applyDecrements (inventory_ref : Map) : Map → Map
  | [] => inventory_ref
  | (code, item) :: rest =>
    applyDecrements (decQty inventory_ref code item.Quantity) rest

/-- The sweep: delete every inventory record whose quantity is `0`. -/
def removeZero (inventory_ref : Map) : Map :=
  inventory_ref.filter fun p => !(p.2.Quantity == 0)

/-- Function `confirm_purchase_arg(user_cart, inventory_ref)`: empty-cart check, the
read-only validation loop, then commit, sweep, transaction id
(`str(uuid.uuid4())[:8]`, the uuid string being the `uuidStr` parameter),
and `user_cart.clear()`. -/
def confirm_purchase_arg (user_cart inventory_ref : Map) (uuidStr : List Char) :
    PurRes :=
  if user_cart.isEmpty then
    ⟨some (.valueError "Cart is empty"), none, user_cart, inventory_ref⟩
  else
    match checkCart inventory_ref user_cart with
    | some e => ⟨some e, none, user_cart, inventory_ref⟩
    | none =>
      let inv2 := removeZero (applyDecrements inventory_ref user_cart)
      ⟨none, some (uuidStr.take 8), [], inv2⟩

/-! ## Reachable states

The operation alphabet and the small-step semantics used by the invariant
claims: a state is a cart paired with an inventory, and each step runs one
core operation, keeping whatever state the call leaves behind (on an
exception this is the state at raise time). -/

/-- One core operation together with its arguments. -/
inductive Op where
  | addToCart (item_code quantity : Int)
  | manageCart (item_code : Int) (action : String) (new_quantity : Option Int)
  | adjustQuantity (item_code new_quantity : Int)
  | adjustPrice (item_code : Int) (new_price : Rat)
  | confirmPurchase (uuidStr : List Char)

/-- A shared state: the session cart and the inventory store. -/
structure St where
  cart : Map
  inv : Map
deriving DecidableEq

/-- Run one core operation on a state, keeping the state it leaves behind
(unchanged when the call raises). -/
def applyOp (s : St) : Op → St
  | .addToCart c q =>
    let r := add_to_cart_arg s.cart s.inv c q
    ⟨r.cart, r.inv⟩
  | .manageCart c a nq =>
    let r := manage_cart_arg s.cart s.inv c a nq
    ⟨r.cart, r.inv⟩
  | .adjustQuantity c q => ⟨s.cart, (adjust_quantity_arg s.inv c q).inv⟩
  | .adjustPrice c p => ⟨s.cart, (adjust_item_price_arg s.inv c p).inv⟩
  | .confirmPurchase u =>
    let r := confirm_purchase_arg s.cart s.inv u
    ⟨r.cart, r.inv⟩

/-- States reachable from `init` by operations satisfying `allowed`. -/
inductive Reach (allowed : Op → Prop) (init : St) : St → Prop
  | refl : Reach allowed init init
  | step {s : St} (o : Op) : Reach allowed init s → allowed o →
      Reach allowed init (applyOp s o)

/-- Well-formedness carried by every state that models Python dicts:
key lists have no duplicates. -/
def StWF (s : St) : Prop := (keys s.cart).Nodup ∧ (keys s.inv).Nodup

/-- The operation set of the amended cart-quantity invariant: every core
operation except the owner's absolute quantity set. -/
def noQuantityReset : Op → Prop
  | .adjustQuantity _ _ => False
  | _ => True

/-! ## Dictionary lemmas -/

theorem keys_cons (k0 : Int) (v0 : Record) (rest : Map) :
    keys ((k0, v0) :: rest) = k0 :: keys rest := rfl

theorem mem_keys_of_mem {m : Map} {k : Int} {v : Record} (h : (k, v) ∈ m) :
    k ∈ keys m :=
  List.mem_map.mpr ⟨(k, v), h, rfl⟩

theorem lookupEntry_setEntry (m : Map) (k : Int) (v : Record) (j : Int) :
    lookupEntry (setEntry m k v) j = if j = k then some v else lookupEntry m j := by
  induction m with
  | nil => simp [setEntry, lookupEntry]
  | cons p rest ih =>
    obtain ⟨k0, v0⟩ := p
    by_cases hk : k0 = k
    · subst hk
      by_cases hj : j = k0 <;> simp [setEntry, lookupEntry, hj]
    · by_cases hj : j = k0
      · subst hj
        simp [setEntry, lookupEntry, hk]
      · simp [setEntry, lookupEntry, hk, hj, ih]

theorem lookupEntry_eraseEntry_ne (m : Map) (k j : Int) (h : j ≠ k) :
    lookupEntry (eraseEntry m k) j = lookupEntry m j := by
  induction m with
  | nil => simp [eraseEntry]
  | cons p rest ih =>
    obtain ⟨k0, v0⟩ := p
    by_cases hk : k0 = k
    · subst hk
      simp [eraseEntry, lookupEntry, fun hj : j = k0 => h hj]
    · by_cases hj : j = k0 <;> simp [eraseEntry, lookupEntry, hk, hj, ih]

theorem lookupEntry_eq_none_iff (m : Map) (k : Int) :
    lookupEntry m k = none ↔ k ∉ keys m := by
  induction m with
  | nil => simp [lookupEntry, keys]
  | cons p rest ih =>
    obtain ⟨k0, v0⟩ := p
    by_cases hj : k = k0
    · subst hj
      simp [lookupEntry, keys]
    · simp only [lookupEntry, if_neg hj, keys_cons, List.mem_cons]
      rw [ih]
      simp [hj]

theorem mem_of_lookupEntry_eq_some {m : Map} {k : Int} {v : Record}
    (h : lookupEntry m k = some v) : (k, v) ∈ m := by
  induction m with
  | nil => exact absurd h (by simp [lookupEntry])
  | cons p rest ih =>
    obtain ⟨k0, v0⟩ := p
    by_cases hj : k = k0
    · subst hj
      simp [lookupEntry] at h
      subst h
      exact List.mem_cons_self _ _
    · simp only [lookupEntry, if_neg hj] at h
      exact List.mem_cons_of_mem _ (ih h)

theorem lookupEntry_eq_some_of_mem {m : Map} {k : Int} {v : Record}
    (hnd : (keys m).Nodup) (h : (k, v) ∈ m) : lookupEntry m k = some v := by
  induction m with
  | nil => exact absurd h (by simp)
  | cons p rest ih =>
    obtain ⟨k0, v0⟩ := p
    rw [keys_cons] at hnd
    have hnd2 := List.nodup_cons.mp hnd
    rcases List.mem_cons.mp h with h1 | h1
    · cases h1
      simp [lookupEntry]
    · have hkne : ¬ k = k0 := fun he => hnd2.1 (he ▸ mem_keys_of_mem h1)
      simp only [lookupEntry, if_neg hkne]
      exact ih hnd2.2 h1

theorem eraseEntry_sublist (m : Map) (k : Int) : (eraseEntry m k).Sublist m := by
  induction m with
  | nil => simp [eraseEntry]
  | cons p rest ih =>
    obtain ⟨k0, v0⟩ := p
    by_cases hk : k0 = k
    · rw [eraseEntry, if_pos hk]
      exact List.sublist_cons_self _ _
    · rw [eraseEntry, if_neg hk]
      exact ih.cons₂ _

theorem keys_nodup_eraseEntry {m : Map} (k : Int) (h : (keys m).Nodup) :
    (keys (eraseEntry m k)).Nodup :=
  ((eraseEntry_sublist m k).map Prod.fst).nodup h

theorem lookupEntry_eraseEntry_self {m : Map} (k : Int) (h : (keys m).Nodup) :
    lookupEntry (eraseEntry m k) k = none := by
  induction m with
  | nil => rfl
  | cons p rest ih =>
    obtain ⟨k0, v0⟩ := p
    rw [keys_cons] at h
    have h2 := List.nodup_cons.mp h
    by_cases hk : k0 = k
    · subst hk
      rw [eraseEntry, if_pos rfl, lookupEntry_eq_none_iff]
      exact h2.1
    · rw [eraseEntry, if_neg hk]
      simp only [lookupEntry, if_neg (fun he : k = k0 => hk he.symm)]
      exact ih h2.2

theorem keys_setEntry_of_mem {m : Map} {k : Int} (v : Record)
    (h : lookupEntry m k ≠ none) : keys (setEntry m k v) = keys m := by
  induction m with
  | nil => exact absurd rfl h
  | cons p rest ih =>
    obtain ⟨k0, v0⟩ := p
    by_cases hk : k0 = k
    · rw [setEntry, if_pos hk, keys_cons, keys_cons, hk]
    · have hne : ¬ k = k0 := fun h2 => hk h2.symm
      simp only [lookupEntry, if_neg hne] at h
      rw [setEntry, if_neg hk, keys_cons, keys_cons, ih h]

theorem keys_setEntry_of_not_mem {m : Map} {k : Int} (v : Record)
    (h : lookupEntry m k = none) : keys (setEntry m k v) = keys m ++ [k] := by
  induction m with
  | nil => simp [setEntry, keys]
  | cons p rest ih =>
    obtain ⟨k0, v0⟩ := p
    by_cases hk : k0 = k
    · subst hk
      simp [lookupEntry] at h
    · have hne : ¬ k = k0 := fun h2 => hk h2.symm
      simp only [lookupEntry, if_neg hne] at h
      rw [setEntry, if_neg hk, keys_cons, keys_cons, ih h]
      rfl

theorem keys_nodup_setEntry {m : Map} (k : Int) (v : Record)
    (h : (keys m).Nodup) : (keys (setEntry m k v)).Nodup := by
  by_cases hm : lookupEntry m k = none
  · rw [keys_setEntry_of_not_mem v hm]
    have hk : k ∉ keys m := (lookupEntry_eq_none_iff m k).mp hm
    rw [List.nodup_append]
    exact ⟨h, List.nodup_singleton k,
      fun a ha hb => hk ((List.mem_singleton.mp hb) ▸ ha)⟩
  · rw [keys_setEntry_of_mem v hm]
    exact h

/-! ## Purchase-finalizer lemmas -/

theorem getQty_eq_zero_of_not_mem {m : Map} {k : Int} (h : k ∉ keys m) :
    getQty m k = 0 := by
  simp [getQty, (lookupEntry_eq_none_iff m k).mpr h]

theorem keys_decQty (m : Map) (c q : Int) : keys (decQty m c q) = keys m := by
  induction m with
  | nil => rfl
  | cons p rest ih =>
    obtain ⟨k0, v0⟩ := p
    by_cases hk : k0 = c
    · rw [decQty, if_pos hk, keys_cons, keys_cons]
    · rw [decQty, if_neg hk, keys_cons, keys_cons, ih]

theorem lookupEntry_decQty (m : Map) (c q j : Int) :
    lookupEntry (decQty m c q) j =
      if j = c then
        (lookupEntry m j).map fun r => { r with Quantity := r.Quantity - q }
      else lookupEntry m j := by
  induction m with
  | nil => simp [decQty, lookupEntry]
  | cons p rest ih =>
    obtain ⟨k0, v0⟩ := p
    by_cases hk : k0 = c
    · subst hk
      by_cases hj : j = k0
      · subst hj
        rw [decQty, if_pos rfl]
        simp [lookupEntry]
      · rw [decQty, if_pos rfl]
        simp only [lookupEntry, if_neg hj]
    · by_cases hj : j = k0
      · subst hj
        rw [decQty, if_neg hk]
        simp [lookupEntry, hk]
      · rw [decQty, if_neg hk]
        simp only [lookupEntry, if_neg hj]
        exact ih

theorem keys_applyDecrements (cart : Map) :
    ∀ m : Map, keys (applyDecrements m cart) = keys m := by
  induction cart with
  | nil => intro m; rfl
  | cons p rest ih =>
    obtain ⟨c, e⟩ := p
    intro m
    show keys (applyDecrements (decQty m c e.Quantity) rest) = keys m
    rw [ih, keys_decQty]

theorem lookupEntry_applyDecrements (cart : Map) (j : Int) :
    ∀ m : Map, (keys cart).Nodup →
      lookupEntry (applyDecrements m cart) j =
        (lookupEntry m j).map
          fun r => { r with Quantity := r.Quantity - getQty cart j } := by
  induction cart with
  | nil =>
    intro m _
    cases h : lookupEntry m j <;> simp [applyDecrements, getQty, lookupEntry, h]
  | cons p rest ih =>
    obtain ⟨c, e⟩ := p
    intro m hnd
    rw [keys_cons] at hnd
    have hnd2 := List.nodup_cons.mp hnd
    show lookupEntry (applyDecrements (decQty m c e.Quantity) rest) j = _
    rw [ih (decQty m c e.Quantity) hnd2.2, lookupEntry_decQty]
    by_cases hj : j = c
    · subst hj
      have h0 : getQty rest j = 0 := getQty_eq_zero_of_not_mem hnd2.1
      have hq : getQty ((j, e) :: rest) j = e.Quantity := by
        simp [getQty, lookupEntry]
      rw [if_pos rfl, h0, hq]
      cases h : lookupEntry m j <;> simp
    · have hq : getQty ((c, e) :: rest) j = getQty rest j := by
        simp [getQty, lookupEntry, hj]
      rw [if_neg hj, hq]

theorem removeZero_sublist (m : Map) : (removeZero m).Sublist m :=
  List.filter_sublist m

theorem keys_nodup_removeZero {m : Map} (h : (keys m).Nodup) :
    (keys (removeZero m)).Nodup :=
  ((removeZero_sublist m).map Prod.fst).nodup h

theorem quantity_ne_zero_of_mem_removeZero {m : Map} {k : Int} {r : Record}
    (h : lookupEntry (removeZero m) k = some r) : r.Quantity ≠ 0 := by
  have hp := List.of_mem_filter (mem_of_lookupEntry_eq_some h)
  simpa using hp

theorem removeZero_cons (k0 : Int) (v0 : Record) (rest : Map) :
    removeZero ((k0, v0) :: rest) =
      if v0.Quantity = 0 then removeZero rest
      else (k0, v0) :: removeZero rest := by
  by_cases hv : v0.Quantity = 0
  · simp [removeZero, List.filter, hv]
  · have hb : (v0.Quantity == 0) = false := beq_eq_false_iff_ne.mpr hv
    simp [removeZero, List.filter, hv, hb]

theorem lookupEntry_removeZero_of_ne_zero {m : Map} {k : Int} {r : Record}
    (h : lookupEntry m k = some r) (hz : r.Quantity ≠ 0) :
    lookupEntry (removeZero m) k = some r := by
  induction m with
  | nil => exact absurd h (by simp [lookupEntry])
  | cons p rest ih =>
    obtain ⟨k0, v0⟩ := p
    rw [removeZero_cons]
    by_cases hk : k = k0
    · subst hk
      simp [lookupEntry] at h
      subst h
      rw [if_neg hz]
      simp [lookupEntry]
    · simp only [lookupEntry, if_neg hk] at h
      by_cases hv : v0.Quantity = 0
      · rw [if_pos hv]
        exact ih h
      · rw [if_neg hv]
        simp only [lookupEntry, if_neg hk]
        exact ih h

theorem lookupEntry_removeZero_of_zero {m : Map} {k : Int} {r : Record}
    (hnd : (keys m).Nodup) (h : lookupEntry m k = some r) (hz : r.Quantity = 0) :
    lookupEntry (removeZero m) k = none := by
  induction m with
  | nil => exact absurd h (by simp [lookupEntry])
  | cons p rest ih =>
    obtain ⟨k0, v0⟩ := p
    rw [keys_cons] at hnd
    have hnd2 := List.nodup_cons.mp hnd
    rw [removeZero_cons]
    by_cases hk : k = k0
    · subst hk
      simp [lookupEntry] at h
      subst h
      rw [if_pos hz, lookupEntry_eq_none_iff]
      intro hmem
      exact hnd2.1 (((removeZero_sublist rest).map Prod.fst).subset hmem)
    · simp only [lookupEntry, if_neg hk] at h
      by_cases hv : v0.Quantity = 0
      · rw [if_pos hv]
        exact ih hnd2.2 h
      · rw [if_neg hv]
        simp only [lookupEntry, if_neg hk]
        exact ih hnd2.2 h

theorem checkCart_none_of_ok (inv : Map) :
    ∀ cart : Map,
      (∀ p ∈ cart, lookupEntry inv p.1 ≠ none ∧ p.2.Quantity ≤ getQty inv p.1) →
      checkCart inv cart = none := by
  intro cart
  induction cart with
  | nil => intro _; rfl
  | cons p rest ih =>
    obtain ⟨code, item⟩ := p
    intro h
    have hhead := h (code, item) (List.mem_cons_self _ _)
    cases hl : lookupEntry inv code with
    | none => exact absurd hl hhead.1
    | some r =>
      have hq : ¬ item.Quantity > r.Quantity := by
        have := hhead.2
        simp [getQty, hl] at this
        omega
      simp only [checkCart, hl, if_neg hq]
      exact ih fun q hq2 => h q (List.mem_cons_of_mem _ hq2)

theorem ok_of_checkCart_none (inv : Map) :
    ∀ cart : Map, checkCart inv cart = none →
      ∀ p ∈ cart, lookupEntry inv p.1 ≠ none ∧ p.2.Quantity ≤ getQty inv p.1 := by
  intro cart
  induction cart with
  | nil => intro _ p hp; exact absurd hp (by simp)
  | cons q rest ih =>
    obtain ⟨code, item⟩ := q
    intro h p hp
    cases hl : lookupEntry inv code with
    | none => simp [checkCart, hl] at h
    | some r =>
      by_cases hq : item.Quantity > r.Quantity
      · simp [checkCart, hl, hq] at h
      · simp only [checkCart, hl, if_neg hq] at h
        rcases List.mem_cons.mp hp with h1 | h1
        · subst h1
          exact ⟨by simp [hl], by simp [getQty, hl]; omega⟩
        · exact ih h p h1

/-! ## Error-path frame lemmas -/

theorem add_to_cart_arg_err_frame (cart inv : Map) (c q : Int) :
    (add_to_cart_arg cart inv c q).err.isSome →
    (add_to_cart_arg cart inv c q).cart = cart ∧
    (add_to_cart_arg cart inv c q).inv = inv := by
  cases hl : lookupEntry inv c with
  | none => simp [add_to_cart_arg, hl]
  | some r =>
    by_cases hq : q ≤ 0
    · simp [add_to_cart_arg, hl, hq]
    · by_cases hcap : getQty cart c + q > r.Quantity
      · simp [add_to_cart_arg, hl, hq, hcap]
      · cases hc : lookupEntry cart c <;>
          simp [add_to_cart_arg, hl, hq, hcap, hc]

theorem manage_cart_arg_err_frame (cart inv : Map) (c : Int) (a : String)
    (nq : Option Int) :
    (manage_cart_arg cart inv c a nq).err.isSome →
    (manage_cart_arg cart inv c a nq).cart = cart ∧
    (manage_cart_arg cart inv c a nq).inv = inv := by
  cases hl : lookupEntry cart c with
  | none => simp [manage_cart_arg, hl]
  | some e =>
    by_cases hrem : a = "remove"
    · simp [manage_cart_arg, hl, hrem]
    · by_cases hadj : a = "adjust"
      · cases nq with
        | none => simp [manage_cart_arg, hl, hrem, hadj]
        | some n =>
          by_cases hn : n ≤ 0
          · simp [manage_cart_arg, hl, hrem, hadj, hn]
          · by_cases hcap : n > getQty inv c <;>
              simp [manage_cart_arg, hl, hrem, hadj, hn, hcap]
      · simp [manage_cart_arg, hl, hrem, hadj]

theorem adjust_quantity_arg_err_frame (inv : Map) (c q : Int) :
    (adjust_quantity_arg inv c q).err.isSome →
    (adjust_quantity_arg inv c q).inv = inv := by
  cases hl : lookupEntry inv c with
  | none => simp [adjust_quantity_arg, hl]
  | some r => by_cases hq : q < 0 <;> simp [adjust_quantity_arg, hl, hq]

theorem adjust_item_price_arg_err_frame (inv : Map) (c : Int) (p : Rat) :
    (adjust_item_price_arg inv c p).err.isSome →
    (adjust_item_price_arg inv c p).inv = inv := by
  cases hl : lookupEntry inv c with
  | none => simp [adjust_item_price_arg, hl]
  | some r => by_cases hp : p ≤ 0 <;> simp [adjust_item_price_arg, hl, hp]

theorem confirm_purchase_arg_err_frame (cart inv : Map) (u : List Char) :
    (confirm_purchase_arg cart inv u).err.isSome →
    (confirm_purchase_arg cart inv u).cart = cart ∧
    (confirm_purchase_arg cart inv u).inv = inv := by
  by_cases he : cart.isEmpty
  · simp [confirm_purchase_arg, he]
  · cases hc : checkCart inv cart <;> simp [confirm_purchase_arg, he, hc]

/-! ## Claim theorems -/

/-- C1: every core operation that raises leaves the cart and the inventory
exactly as they were before the call; in particular a failing
`confirm_purchase_arg` on a non-empty cart changes no inventory quantity and
leaves the cart fully intact (the two adjust helpers never receive the cart,
so for them only the inventory is at stake). -/
theorem c1_error_leaves_state_unchanged :
    (∀ cart inv c q, (add_to_cart_arg cart inv c q).err.isSome →
      (add_to_cart_arg cart inv c q).cart = cart ∧
      (add_to_cart_arg cart inv c q).inv = inv) ∧
    (∀ cart inv c a nq, (manage_cart_arg cart inv c a nq).err.isSome →
      (manage_cart_arg cart inv c a nq).cart = cart ∧
      (manage_cart_arg cart inv c a nq).inv = inv) ∧
    (∀ inv c q, (adjust_quantity_arg inv c q).err.isSome →
      (adjust_quantity_arg inv c q).inv = inv) ∧
    (∀ inv c p, (adjust_item_price_arg inv c p).err.isSome →
      (adjust_item_price_arg inv c p).inv = inv) ∧
    (∀ cart inv u, (confirm_purchase_arg cart inv u).err.isSome →
      (confirm_purchase_arg cart inv u).cart = cart ∧
      (confirm_purchase_arg cart inv u).inv = inv) :=
  ⟨add_to_cart_arg_err_frame, manage_cart_arg_err_frame,
    adjust_quantity_arg_err_frame, adjust_item_price_arg_err_frame,
    confirm_purchase_arg_err_frame⟩

/-- Witness for C1: a failing add (unknown code) and a failing purchase
(cart entry missing from inventory, two-entry cart) leave the states they
were given. -/
theorem c1_error_leaves_state_unchanged_witness :
    (add_to_cart_arg [] [] 1 1).cart = [] ∧
    (add_to_cart_arg [] [] 1 1).inv = [] ∧
    (confirm_purchase_arg [(1, ⟨"Water", 1, 3⟩), (2, ⟨"Soda", 2, 1⟩)]
        [(1, ⟨"Water", 1, 10⟩)] []).cart =
      [(1, ⟨"Water", 1, 3⟩), (2, ⟨"Soda", 2, 1⟩)] ∧
    (confirm_purchase_arg [(1, ⟨"Water", 1, 3⟩), (2, ⟨"Soda", 2, 1⟩)]
        [(1, ⟨"Water", 1, 10⟩)] []).inv = [(1, ⟨"Water", 1, 10⟩)] := by
  have h1 := c1_error_leaves_state_unchanged.1 [] [] 1 1 (by decide)
  have h5 := c1_error_leaves_state_unchanged.2.2.2.2
    [(1, ⟨"Water", 1, 3⟩), (2, ⟨"Soda", 2, 1⟩)] [(1, ⟨"Water", 1, 10⟩)] []
    (by decide)
  exact ⟨h1.1, h1.2, h5.1, h5.2⟩

/-- C2: with an empty cart `confirm_purchase_arg` fails with the
invalid-argument error "Cart is empty"; with a non-empty cart whose every
code exists in inventory with cart quantity at most the stock,
it decrements each matching record by the cart quantity, removes every
record left at quantity `0`, clears the cart, and returns the first 8
characters of the generated uuid string (8 characters, since a uuid string
is long enough). -/
theorem c2_confirm_purchase_spec :
    (∀ inv u, (confirm_purchase_arg [] inv u).err =
      some (.valueError "Cart is empty")) ∧
    (∀ cart inv u, cart ≠ [] → (keys cart).Nodup → (keys inv).Nodup →
      (∀ p ∈ cart, lookupEntry inv p.1 ≠ none ∧ p.2.Quantity ≤ getQty inv p.1) →
      8 ≤ u.length →
      (confirm_purchase_arg cart inv u).err = none ∧
      (confirm_purchase_arg cart inv u).cart = [] ∧
      (confirm_purchase_arg cart inv u).tid = some (u.take 8) ∧
      (u.take 8).length = 8 ∧
      (∀ k r, lookupEntry inv k = some r →
        (r.Quantity - getQty cart k = 0 →
          lookupEntry (confirm_purchase_arg cart inv u).inv k = none) ∧
        (r.Quantity - getQty cart k ≠ 0 →
          lookupEntry (confirm_purchase_arg cart inv u).inv k =
            some ⟨r.Name, r.Price, r.Quantity - getQty cart k⟩))) := by
  constructor
  · intro inv u
    rfl
  · intro cart inv u hne hndc hndi hok hu
    have hemp : cart.isEmpty = false := by
      cases cart with
      | nil => exact absurd rfl hne
      | cons p rest => rfl
    have hchk : checkCart inv cart = none := checkCart_none_of_ok inv cart hok
    have hres : confirm_purchase_arg cart inv u =
        ⟨none, some (u.take 8), [], removeZero (applyDecrements inv cart)⟩ := by
      simp [confirm_purchase_arg, hemp, hchk]
    rw [hres]
    refine ⟨rfl, rfl, rfl, ?_, ?_⟩
    · simp [List.length_take]
      omega
    · intro k r hr
      have hdec : lookupEntry (applyDecrements inv cart) k =
          some ⟨r.Name, r.Price, r.Quantity - getQty cart k⟩ := by
        rw [lookupEntry_applyDecrements cart k inv hndc, hr]
        rfl
      have hnd2 : (keys (applyDecrements inv cart)).Nodup := by
        rw [keys_applyDecrements]
        exact hndi
      constructor
      · intro hz
        exact lookupEntry_removeZero_of_zero hnd2 hdec hz
      · intro hz
        exact lookupEntry_removeZero_of_ne_zero hdec hz

/-- Witness for C2: the spec's literal scenario — two-item inventory, cart
taking 3 of item 1 and all 5 of item 2; the purchase succeeds, item 1 drops
to 7, item 2 is evicted, the cart is cleared and an 8-character id comes
back. -/
theorem c2_confirm_purchase_spec_witness :
    (confirm_purchase_arg [(1, ⟨"Water", 1, 3⟩), (2, ⟨"Soda", 2, 5⟩)]
        [(1, ⟨"Water", 1, 10⟩), (2, ⟨"Soda", 2, 5⟩)]
        (List.replicate 36 'u')).err = none ∧
    (confirm_purchase_arg [(1, ⟨"Water", 1, 3⟩), (2, ⟨"Soda", 2, 5⟩)]
        [(1, ⟨"Water", 1, 10⟩), (2, ⟨"Soda", 2, 5⟩)]
        (List.replicate 36 'u')).cart = [] ∧
    (confirm_purchase_arg [(1, ⟨"Water", 1, 3⟩), (2, ⟨"Soda", 2, 5⟩)]
        [(1, ⟨"Water", 1, 10⟩), (2, ⟨"Soda", 2, 5⟩)]
        (List.replicate 36 'u')).tid = some ((List.replicate 36 'u').take 8) ∧
    ((List.replicate 36 'u').take 8).length = 8 ∧
    lookupEntry (confirm_purchase_arg [(1, ⟨"Water", 1, 3⟩), (2, ⟨"Soda", 2, 5⟩)]
        [(1, ⟨"Water", 1, 10⟩), (2, ⟨"Soda", 2, 5⟩)]
        (List.replicate 36 'u')).inv 1 = some ⟨"Water", 1, 7⟩ ∧
    lookupEntry (confirm_purchase_arg [(1, ⟨"Water", 1, 3⟩), (2, ⟨"Soda", 2, 5⟩)]
        [(1, ⟨"Water", 1, 10⟩), (2, ⟨"Soda", 2, 5⟩)]
        (List.replicate 36 'u')).inv 2 = none := by
  have h := c2_confirm_purchase_spec.2
    [(1, ⟨"Water", 1, 3⟩), (2, ⟨"Soda", 2, 5⟩)]
    [(1, ⟨"Water", 1, 10⟩), (2, ⟨"Soda", 2, 5⟩)]
    (List.replicate 36 'u')
    (by decide) (by decide) (by decide) (by decide) (by decide)
  refine ⟨h.1, h.2.1, h.2.2.1, h.2.2.2.1, ?_, ?_⟩
  · have := (h.2.2.2.2 1 ⟨"Water", 1, 10⟩ (by decide)).2 (by decide)
    simpa using this
  · have := (h.2.2.2.2 2 ⟨"Soda", 2, 5⟩ (by decide)).1 (by decide)
    simpa using this

/-- C4: `add_to_cart_arg` fails with the not-found KeyError when the code is
absent from inventory, the invalid-argument ValueError when the quantity is
non-positive, and the capacity ValueError exactly when the cart's current
quantity (`0` if absent) plus the requested quantity exceeds the stock;
otherwise it increments an existing entry or inserts a fresh one with name
and price copied from the inventory record. -/
theorem c4_add_to_cart_spec :
    ∀ cart inv c q,
      (lookupEntry inv c = none →
        (add_to_cart_arg cart inv c q).err =
          some (.keyError "Item code not found in inventory")) ∧
      (∀ r, lookupEntry inv c = some r → q ≤ 0 →
        (add_to_cart_arg cart inv c q).err =
          some (.valueError "Quantity must be positive")) ∧
      (∀ r, lookupEntry inv c = some r → 0 < q →
        ((add_to_cart_arg cart inv c q).err =
            some (.valueError "Not enough quantity available") ↔
          r.Quantity < getQty cart c + q)) ∧
      (∀ r, lookupEntry inv c = some r → 0 < q →
        getQty cart c + q ≤ r.Quantity →
        (add_to_cart_arg cart inv c q).err = none ∧
        (∀ e, lookupEntry cart c = some e →
          lookupEntry (add_to_cart_arg cart inv c q).cart c =
            some ⟨e.Name, e.Price, e.Quantity + q⟩) ∧
        (lookupEntry cart c = none →
          lookupEntry (add_to_cart_arg cart inv c q).cart c =
            some ⟨r.Name, r.Price, q⟩)) := by
  intro cart inv c q
  refine ⟨?_, ?_, ?_, ?_⟩
  · intro hl
    simp [add_to_cart_arg, hl]
  · intro r hl hq
    simp [add_to_cart_arg, hl, hq]
  · intro r hl hq
    have hq2 : ¬ q ≤ 0 := by omega
    by_cases hcap : getQty cart c + q > r.Quantity
    · simp [add_to_cart_arg, hl, hq2, hcap]
    · cases hc : lookupEntry cart c <;>
        simp [add_to_cart_arg, hl, hq2, hcap, hc]
  · intro r hl hq hle
    have hq2 : ¬ q ≤ 0 := by omega
    have hcap : ¬ getQty cart c + q > r.Quantity := by omega
    refine ⟨?_, ?_, ?_⟩
    · cases hc : lookupEntry cart c <;>
        simp [add_to_cart_arg, hl, hq2, hcap, hc]
    · intro e hc
      simp [add_to_cart_arg, hl, hq2, hcap, hc, lookupEntry_setEntry]
    · intro hc
      simp [add_to_cart_arg, hl, hq2, hcap, hc, lookupEntry_setEntry]

/-- Witness for C4: adding 3 Water to an empty cart from a 10-unit stock
succeeds and inserts the snapshotted entry. -/
theorem c4_add_to_cart_spec_witness :
    (add_to_cart_arg [] [(1, ⟨"Water", 1, 10⟩)] 1 3).err = none ∧
    lookupEntry (add_to_cart_arg [] [(1, ⟨"Water", 1, 10⟩)] 1 3).cart 1 =
      some ⟨"Water", 1, 3⟩ := by
  have h := (c4_add_to_cart_spec [] [(1, ⟨"Water", 1, 10⟩)] 1 3).2.2.2
    ⟨"Water", 1, 10⟩ (by decide) (by decide) (by decide)
  exact ⟨h.1, h.2.2 (by decide)⟩

/-- C6: `manage_cart_arg` fails with the not-found KeyError when the code is
absent from the cart; `remove` deletes the entry unconditionally; `adjust`
requires a provided positive quantity not exceeding the current stock and
then sets the entry's quantity absolutely; any other action fails with the
invalid-action ValueError. -/
theorem c6_manage_cart_spec :
    ∀ cart inv c a nq,
      (lookupEntry cart c = none →
        (manage_cart_arg cart inv c a nq).err =
          some (.keyError "Item not found in user cart")) ∧
      (∀ e, lookupEntry cart c = some e →
        (a = "remove" →
          (manage_cart_arg cart inv c a nq).err = none ∧
          (manage_cart_arg cart inv c a nq).cart = eraseEntry cart c ∧
          ((keys cart).Nodup →
            lookupEntry (manage_cart_arg cart inv c a nq).cart c = none)) ∧
        (a = "adjust" → nq = none →
          (manage_cart_arg cart inv c a nq).err =
            some (.valueError "new_quantity must be provided for adjustment")) ∧
        (∀ n, a = "adjust" → nq = some n → n ≤ 0 →
          (manage_cart_arg cart inv c a nq).err =
            some (.valueError "Quantity must be positive")) ∧
        (∀ n, a = "adjust" → nq = some n → 0 < n → getQty inv c < n →
          (manage_cart_arg cart inv c a nq).err =
            some (.valueError "Not enough quantity available")) ∧
        (∀ n, a = "adjust" → nq = some n → 0 < n → n ≤ getQty inv c →
          (manage_cart_arg cart inv c a nq).err = none ∧
          lookupEntry (manage_cart_arg cart inv c a nq).cart c =
            some ⟨e.Name, e.Price, n⟩) ∧
        (a ≠ "remove" → a ≠ "adjust" →
          (manage_cart_arg cart inv c a nq).err =
            some (.valueError "Invalid action. Use 'remove' or 'adjust'"))) := by
  intro cart inv c a nq
  refine ⟨?_, ?_⟩
  · intro hl
    simp [manage_cart_arg, hl]
  · intro e hl
    refine ⟨?_, ?_, ?_, ?_, ?_, ?_⟩
    · intro ha
      subst ha
      refine ⟨by simp [manage_cart_arg, hl], by simp [manage_cart_arg, hl], ?_⟩
      intro hnd
      simp only [manage_cart_arg, hl]
      simp [lookupEntry_eraseEntry_self c hnd]
    · intro ha hn
      subst ha
      subst hn
      simp [manage_cart_arg, hl]
    · intro n ha hn hle
      subst ha
      subst hn
      simp [manage_cart_arg, hl, hle]
    · intro n ha hn hpos hcap
      subst ha
      subst hn
      have h1 : ¬ n ≤ 0 := by omega
      simp [manage_cart_arg, hl, h1, hcap]
    · intro n ha hn hpos hle
      subst ha
      subst hn
      have h1 : ¬ n ≤ 0 := by omega
      have h2 : ¬ n > getQty inv c := by omega
      constructor
      · simp [manage_cart_arg, hl, h1, h2]
      · simp [manage_cart_arg, hl, h1, h2, lookupEntry_setEntry]
    · intro ha1 ha2
      simp [manage_cart_arg, hl, ha1, ha2]

/-- Witness for C6: removing the only entry empties the cart; adjusting a
2-unit Soda entry to 4 against a 5-unit stock succeeds. -/
theorem c6_manage_cart_spec_witness :
    (manage_cart_arg [(2, ⟨"Soda", 2, 2⟩)] [(2, ⟨"Soda", 2, 5⟩)] 2
        "remove" none).err = none ∧
    lookupEntry (manage_cart_arg [(2, ⟨"Soda", 2, 2⟩)] [(2, ⟨"Soda", 2, 5⟩)] 2
        "remove" none).cart 2 = none ∧
    (manage_cart_arg [(2, ⟨"Soda", 2, 2⟩)] [(2, ⟨"Soda", 2, 5⟩)] 2
        "adjust" (some 4)).err = none ∧
    lookupEntry (manage_cart_arg [(2, ⟨"Soda", 2, 2⟩)] [(2, ⟨"Soda", 2, 5⟩)] 2
        "adjust" (some 4)).cart 2 = some ⟨"Soda", 2, 4⟩ := by
  have hr := ((c6_manage_cart_spec [(2, ⟨"Soda", 2, 2⟩)] [(2, ⟨"Soda", 2, 5⟩)] 2
    "remove" none).2 ⟨"Soda", 2, 2⟩ (by decide)).1 rfl
  have ha := ((c6_manage_cart_spec [(2, ⟨"Soda", 2, 2⟩)] [(2, ⟨"Soda", 2, 5⟩)] 2
    "adjust" (some 4)).2 ⟨"Soda", 2, 2⟩ (by decide)).2.2.2.2.1 4 rfl rfl
    (by decide) (by decide)
  exact ⟨hr.1, hr.2.2 (by decide), ha.1, ha.2⟩

theorem lookupEntry_applyDecrements_not_mem (cart : Map) (j : Int) :
    ∀ m : Map, lookupEntry cart j = none →
      lookupEntry (applyDecrements m cart) j = lookupEntry m j := by
  induction cart with
  | nil => intro m _; rfl
  | cons p rest ih =>
    obtain ⟨c, e⟩ := p
    intro m h
    have hj : ¬ j = c := by
      intro hj
      subst hj
      simp [lookupEntry] at h
    simp only [lookupEntry, if_neg hj] at h
    show lookupEntry (applyDecrements (decQty m c e.Quantity) rest) j = _
    rw [ih (decQty m c e.Quantity) h, lookupEntry_decQty, if_neg hj]

/-- C7: `adjust_quantity_arg` fails with the not-found KeyError on an absent
code and the negative-quantity ValueError otherwise when the new quantity is
negative, and else sets the quantity absolutely (zero allowed);
`adjust_item_price_arg` fails with the not-found KeyError on an absent code
and the non-positive-price ValueError otherwise, and else sets the price
absolutely.  Each touches only the addressed record (and never sees the
cart, which is not even an argument). -/
theorem c7_adjust_helpers_spec :
    (∀ inv c q,
      (lookupEntry inv c = none →
        (adjust_quantity_arg inv c q).err =
          some (.keyError "Item code not found in inventory")) ∧
      (∀ r, lookupEntry inv c = some r → q < 0 →
        (adjust_quantity_arg inv c q).err =
          some (.valueError "Quantity cannot be negative") ∧
        (adjust_quantity_arg inv c q).inv = inv) ∧
      (∀ r, lookupEntry inv c = some r → 0 ≤ q →
        (adjust_quantity_arg inv c q).err = none ∧
        lookupEntry (adjust_quantity_arg inv c q).inv c =
          some ⟨r.Name, r.Price, q⟩ ∧
        ∀ k, k ≠ c →
          lookupEntry (adjust_quantity_arg inv c q).inv k =
            lookupEntry inv k)) ∧
    (∀ inv c (p : Rat),
      (lookupEntry inv c = none →
        (adjust_item_price_arg inv c p).err =
          some (.keyError "Item code not found in inventory")) ∧
      (∀ r, lookupEntry inv c = some r → p ≤ 0 →
        (adjust_item_price_arg inv c p).err =
          some (.valueError "Price must be positive") ∧
        (adjust_item_price_arg inv c p).inv = inv) ∧
      (∀ r, lookupEntry inv c = some r → 0 < p →
        (adjust_item_price_arg inv c p).err = none ∧
        lookupEntry (adjust_item_price_arg inv c p).inv c =
          some ⟨r.Name, p, r.Quantity⟩ ∧
        ∀ k, k ≠ c →
          lookupEntry (adjust_item_price_arg inv c p).inv k =
            lookupEntry inv k)) := by
  constructor
  · intro inv c q
    refine ⟨?_, ?_, ?_⟩
    · intro hl
      simp [adjust_quantity_arg, hl]
    · intro r hl hq
      simp [adjust_quantity_arg, hl, hq]
    · intro r hl hq
      have h1 : ¬ q < 0 := by omega
      refine ⟨by simp [adjust_quantity_arg, hl, h1], ?_, ?_⟩
      · simp [adjust_quantity_arg, hl, h1, lookupEntry_setEntry]
      · intro k hk
        simp [adjust_quantity_arg, hl, h1, lookupEntry_setEntry, hk]
  · intro inv c p
    refine ⟨?_, ?_, ?_⟩
    · intro hl
      simp [adjust_item_price_arg, hl]
    · intro r hl hp
      simp [adjust_item_price_arg, hl, hp]
    · intro r hl hp
      have h1 : ¬ p ≤ 0 := by exact not_le.mpr hp
      refine ⟨by simp [adjust_item_price_arg, hl, h1], ?_, ?_⟩
      · simp [adjust_item_price_arg, hl, h1, lookupEntry_setEntry]
      · intro k hk
        simp [adjust_item_price_arg, hl, h1, lookupEntry_setEntry, hk]

/-- Witness for C7: setting item 1's stock to 0 is allowed; setting its
price to 9 succeeds and keeps item 2 untouched. -/
theorem c7_adjust_helpers_spec_witness :
    (adjust_quantity_arg [(1, ⟨"Water", 1, 10⟩)] 1 0).err = none ∧
    lookupEntry (adjust_quantity_arg [(1, ⟨"Water", 1, 10⟩)] 1 0).inv 1 =
      some ⟨"Water", 1, 0⟩ ∧
    (adjust_item_price_arg [(1, ⟨"Water", 1, 10⟩), (2, ⟨"Soda", 2, 5⟩)]
        1 9).err = none ∧
    lookupEntry (adjust_item_price_arg [(1, ⟨"Water", 1, 10⟩), (2, ⟨"Soda", 2, 5⟩)]
        1 9).inv 1 = some ⟨"Water", 9, 10⟩ ∧
    lookupEntry (adjust_item_price_arg [(1, ⟨"Water", 1, 10⟩), (2, ⟨"Soda", 2, 5⟩)]
        1 9).inv 2 = some ⟨"Soda", 2, 5⟩ := by
  have hq := (c7_adjust_helpers_spec.1 [(1, ⟨"Water", 1, 10⟩)] 1 0).2.2
    ⟨"Water", 1, 10⟩ (by decide) (by decide)
  have hp := (c7_adjust_helpers_spec.2 [(1, ⟨"Water", 1, 10⟩), (2, ⟨"Soda", 2, 5⟩)]
    1 9).2.2 ⟨"Water", 1, 10⟩ (by decide) (by norm_num)
  refine ⟨hq.1, hq.2.1, hp.1, hp.2.1, ?_⟩
  rw [hp.2.2 2 (by decide)]
  decide

/-- C8: whether it succeeds or fails, neither `add_to_cart_arg` nor
`manage_cart_arg` ever changes the inventory, and in the cart only the entry
for the addressed item code can differ from before. -/
theorem c8_cart_ops_frame :
    ∀ cart inv c q a nq k, k ≠ c →
      ((add_to_cart_arg cart inv c q).inv = inv ∧
        lookupEntry (add_to_cart_arg cart inv c q).cart k =
          lookupEntry cart k) ∧
      ((manage_cart_arg cart inv c a nq).inv = inv ∧
        lookupEntry (manage_cart_arg cart inv c a nq).cart k =
          lookupEntry cart k) := by
  intro cart inv c q a nq k hk
  refine ⟨⟨?_, ?_⟩, ⟨?_, ?_⟩⟩
  · cases hl : lookupEntry inv c with
    | none => simp [add_to_cart_arg, hl]
    | some r =>
      by_cases hq : q ≤ 0
      · simp [add_to_cart_arg, hl, hq]
      · by_cases hcap : getQty cart c + q > r.Quantity
        · simp [add_to_cart_arg, hl, hq, hcap]
        · cases hc : lookupEntry cart c <;>
            simp [add_to_cart_arg, hl, hq, hcap, hc]
  · cases hl : lookupEntry inv c with
    | none => simp [add_to_cart_arg, hl]
    | some r =>
      by_cases hq : q ≤ 0
      · simp [add_to_cart_arg, hl, hq]
      · by_cases hcap : getQty cart c + q > r.Quantity
        · simp [add_to_cart_arg, hl, hq, hcap]
        · cases hc : lookupEntry cart c <;>
            simp [add_to_cart_arg, hl, hq, hcap, hc, lookupEntry_setEntry, hk]
  · cases hl : lookupEntry cart c with
    | none => simp [manage_cart_arg, hl]
    | some e =>
      by_cases hrem : a = "remove"
      · simp [manage_cart_arg, hl, hrem]
      · by_cases hadj : a = "adjust"
        · cases nq with
          | none => simp [manage_cart_arg, hl, hrem, hadj]
          | some n =>
            by_cases hn : n ≤ 0
            · simp [manage_cart_arg, hl, hrem, hadj, hn]
            · by_cases hcap : n > getQty inv c <;>
                simp [manage_cart_arg, hl, hrem, hadj, hn, hcap]
        · simp [manage_cart_arg, hl, hrem, hadj]
  · cases hl : lookupEntry cart c with
    | none => simp [manage_cart_arg, hl]
    | some e =>
      by_cases hrem : a = "remove"
      · simp [manage_cart_arg, hl, hrem, lookupEntry_eraseEntry_ne cart c k hk]
      · by_cases hadj : a = "adjust"
        · cases nq with
          | none => simp [manage_cart_arg, hl, hrem, hadj]
          | some n =>
            by_cases hn : n ≤ 0
            · simp [manage_cart_arg, hl, hrem, hadj, hn]
            · by_cases hcap : n > getQty inv c <;>
                simp [manage_cart_arg, hl, hrem, hadj, hn, hcap,
                  lookupEntry_setEntry, hk]
        · simp [manage_cart_arg, hl, hrem, hadj]

/-- Witness for C8: a successful add of item 1 and a successful removal of
item 1 both leave the inventory and the cart's entry for item 2 alone. -/
theorem c8_cart_ops_frame_witness :
    (add_to_cart_arg [(2, ⟨"Soda", 2, 1⟩)] [(1, ⟨"Water", 1, 10⟩)] 1 3).inv =
      [(1, ⟨"Water", 1, 10⟩)] ∧
    lookupEntry (add_to_cart_arg [(2, ⟨"Soda", 2, 1⟩)]
        [(1, ⟨"Water", 1, 10⟩)] 1 3).cart 2 = some ⟨"Soda", 2, 1⟩ ∧
    (manage_cart_arg [(1, ⟨"Water", 1, 3⟩), (2, ⟨"Soda", 2, 1⟩)]
        [(1, ⟨"Water", 1, 10⟩)] 1 "remove" none).inv = [(1, ⟨"Water", 1, 10⟩)] ∧
    lookupEntry (manage_cart_arg [(1, ⟨"Water", 1, 3⟩), (2, ⟨"Soda", 2, 1⟩)]
        [(1, ⟨"Water", 1, 10⟩)] 1 "remove" none).cart 2 = some ⟨"Soda", 2, 1⟩ := by
  have h := c8_cart_ops_frame [(2, ⟨"Soda", 2, 1⟩)] [(1, ⟨"Water", 1, 10⟩)]
    1 3 "remove" none 2 (by decide)
  have h2 := c8_cart_ops_frame [(1, ⟨"Water", 1, 3⟩), (2, ⟨"Soda", 2, 1⟩)]
    [(1, ⟨"Water", 1, 10⟩)] 1 3 "remove" none 2 (by decide)
  refine ⟨h.1.1, ?_, h2.2.1, ?_⟩
  · rw [h.1.2]
    decide
  · rw [h2.2.2]
    decide

/-- C9: `manage_cart_arg` with action `adjust` on a code present in the cart
but missing from inventory treats the available stock as `0`: every positive
new quantity draws the capacity ValueError (never a KeyError), and the cart
is left unchanged. -/
theorem c9_manage_adjust_missing_inventory :
    ∀ cart inv c n e, lookupEntry cart c = some e → lookupEntry inv c = none →
      0 < n →
      (manage_cart_arg cart inv c "adjust" (some n)).err =
        some (.valueError "Not enough quantity available") ∧
      (manage_cart_arg cart inv c "adjust" (some n)).cart = cart ∧
      ∀ msg, (manage_cart_arg cart inv c "adjust" (some n)).err ≠
        some (.keyError msg) := by
  intro cart inv c n e hc hl hn
  have h0 : getQty inv c = 0 := by simp [getQty, hl]
  have h1 : ¬ n ≤ 0 := by omega
  have h2 : n > getQty inv c := by omega
  refine ⟨?_, ?_, ?_⟩
  · simp [manage_cart_arg, hc, h1, h2]
  · simp [manage_cart_arg, hc, h1, h2]
  · intro msg
    simp [manage_cart_arg, hc, h1, h2]

/-- Witness for C9: adjusting a carted item whose code disappeared from
inventory to quantity 1 hits the capacity error and keeps the cart. -/
theorem c9_manage_adjust_missing_inventory_witness :
    (manage_cart_arg [(3, ⟨"Chips", 2, 2⟩)] [] 3 "adjust" (some 1)).err =
      some (.valueError "Not enough quantity available") ∧
    (manage_cart_arg [(3, ⟨"Chips", 2, 2⟩)] [] 3 "adjust" (some 1)).cart =
      [(3, ⟨"Chips", 2, 2⟩)] := by
  have h := c9_manage_adjust_missing_inventory [(3, ⟨"Chips", 2, 2⟩)] [] 3 1
    ⟨"Chips", 2, 2⟩ (by decide) (by decide) (by decide)
  exact ⟨h.1, h.2.1⟩

/-- C10: on success the sweep of `confirm_purchase_arg` removes every
inventory record whose quantity is `0` at that point — the surviving
inventory holds no zero-quantity record, and a record that already sat at
`0` before the call and is not in the cart is removed too, so records
outside the cart are not guaranteed untouched. -/
theorem c10_sweep_removes_all_zero_records :
    ∀ cart inv u, (confirm_purchase_arg cart inv u).err = none →
      (∀ k r, lookupEntry (confirm_purchase_arg cart inv u).inv k = some r →
        r.Quantity ≠ 0) ∧
      ((keys inv).Nodup → ∀ k r, lookupEntry cart k = none →
        lookupEntry inv k = some r → r.Quantity = 0 →
        lookupEntry (confirm_purchase_arg cart inv u).inv k = none) := by
  intro cart inv u herr
  by_cases hemp : cart.isEmpty
  · simp [confirm_purchase_arg, hemp] at herr
  · cases hchk : checkCart inv cart with
    | some e => simp [confirm_purchase_arg, hemp, hchk] at herr
    | none =>
      have hres : (confirm_purchase_arg cart inv u).inv =
          removeZero (applyDecrements inv cart) := by
        simp [confirm_purchase_arg, hemp, hchk]
      rw [hres]
      constructor
      · intro k r hr
        exact quantity_ne_zero_of_mem_removeZero hr
      · intro hnd k r hck hik hz
        have hd : lookupEntry (applyDecrements inv cart) k = some r := by
          rw [lookupEntry_applyDecrements_not_mem cart k inv hck]
          exact hik
        have hnd2 : (keys (applyDecrements inv cart)).Nodup := by
          rw [keys_applyDecrements]
          exact hnd
        exact lookupEntry_removeZero_of_zero hnd2 hd hz

/-- Witness for C10: buying 2 of item 1 also evicts item 7, which was not in
the cart but already sat at quantity 0. -/
theorem c10_sweep_removes_all_zero_records_witness :
    lookupEntry (confirm_purchase_arg [(1, ⟨"Water", 1, 2⟩)]
        [(1, ⟨"Water", 1, 5⟩), (7, ⟨"Juice", 3, 0⟩)] []).inv 7 = none := by
  have h := c10_sweep_removes_all_zero_records [(1, ⟨"Water", 1, 2⟩)]
    [(1, ⟨"Water", 1, 5⟩), (7, ⟨"Juice", 3, 0⟩)] [] (by decide)
  exact h.2 (by decide) 7 ⟨"Juice", 3, 0⟩ (by decide) (by decide) (by decide)

/-! ## Shapes of the operation results, and preservation of well-formedness -/

theorem add_to_cart_arg_inv_eq (cart inv : Map) (c q : Int) :
    (add_to_cart_arg cart inv c q).inv = inv := by
  cases hl : lookupEntry inv c with
  | none => simp [add_to_cart_arg, hl]
  | some r =>
    by_cases hq : q ≤ 0
    · simp [add_to_cart_arg, hl, hq]
    · by_cases hcap : getQty cart c + q > r.Quantity
      · simp [add_to_cart_arg, hl, hq, hcap]
      · cases hc : lookupEntry cart c <;>
          simp [add_to_cart_arg, hl, hq, hcap, hc]

theorem manage_cart_arg_inv_eq (cart inv : Map) (c : Int) (a : String)
    (nq : Option Int) : (manage_cart_arg cart inv c a nq).inv = inv := by
  cases hl : lookupEntry cart c with
  | none => simp [manage_cart_arg, hl]
  | some e =>
    by_cases hrem : a = "remove"
    · simp [manage_cart_arg, hl, hrem]
    · by_cases hadj : a = "adjust"
      · cases nq with
        | none => simp [manage_cart_arg, hl, hrem, hadj]
        | some n =>
          by_cases hn : n ≤ 0
          · simp [manage_cart_arg, hl, hrem, hadj, hn]
          · by_cases hcap : n > getQty inv c <;>
              simp [manage_cart_arg, hl, hrem, hadj, hn, hcap]
      · simp [manage_cart_arg, hl, hrem, hadj]

theorem add_to_cart_arg_cart_shape (cart inv : Map) (c q : Int) :
    (add_to_cart_arg cart inv c q).cart = cart ∨
    ∃ v, (add_to_cart_arg cart inv c q).cart = setEntry cart c v := by
  cases hl : lookupEntry inv c with
  | none => exact Or.inl (by simp [add_to_cart_arg, hl])
  | some r =>
    by_cases hq : q ≤ 0
    · exact Or.inl (by simp [add_to_cart_arg, hl, hq])
    · by_cases hcap : getQty cart c + q > r.Quantity
      · exact Or.inl (by simp [add_to_cart_arg, hl, hq, hcap])
      · cases hc : lookupEntry cart c with
        | none =>
          exact Or.inr ⟨⟨r.Name, r.Price, q⟩,
            by simp [add_to_cart_arg, hl, hq, hcap, hc]⟩
        | some e =>
          exact Or.inr ⟨⟨e.Name, e.Price, e.Quantity + q⟩,
            by simp [add_to_cart_arg, hl, hq, hcap, hc]⟩

theorem manage_cart_arg_cart_shape (cart inv : Map) (c : Int) (a : String)
    (nq : Option Int) :
    (manage_cart_arg cart inv c a nq).cart = cart ∨
    (manage_cart_arg cart inv c a nq).cart = eraseEntry cart c ∨
    ∃ v, (manage_cart_arg cart inv c a nq).cart = setEntry cart c v := by
  cases hl : lookupEntry cart c with
  | none => exact Or.inl (by simp [manage_cart_arg, hl])
  | some e =>
    by_cases hrem : a = "remove"
    · exact Or.inr (Or.inl (by simp [manage_cart_arg, hl, hrem]))
    · by_cases hadj : a = "adjust"
      · cases nq with
        | none => exact Or.inl (by simp [manage_cart_arg, hl, hrem, hadj])
        | some n =>
          by_cases hn : n ≤ 0
          · exact Or.inl (by simp [manage_cart_arg, hl, hrem, hadj, hn])
          · by_cases hcap : n > getQty inv c
            · exact Or.inl
                (by simp [manage_cart_arg, hl, hrem, hadj, hn, hcap])
            · exact Or.inr (Or.inr ⟨⟨e.Name, e.Price, n⟩,
                by simp [manage_cart_arg, hl, hrem, hadj, hn, hcap]⟩)
      · exact Or.inl (by simp [manage_cart_arg, hl, hrem, hadj])

theorem adjust_quantity_arg_inv_shape (inv : Map) (c q : Int) :
    (adjust_quantity_arg inv c q).inv = inv ∨
    ∃ v, (adjust_quantity_arg inv c q).inv = setEntry inv c v := by
  cases hl : lookupEntry inv c with
  | none => exact Or.inl (by simp [adjust_quantity_arg, hl])
  | some r =>
    by_cases hq : q < 0
    · exact Or.inl (by simp [adjust_quantity_arg, hl, hq])
    · exact Or.inr ⟨⟨r.Name, r.Price, q⟩, by simp [adjust_quantity_arg, hl, hq]⟩

theorem adjust_item_price_arg_inv_shape (inv : Map) (c : Int) (p : Rat) :
    (adjust_item_price_arg inv c p).inv = inv ∨
    ∃ v, (adjust_item_price_arg inv c p).inv = setEntry inv c v := by
  cases hl : lookupEntry inv c with
  | none => exact Or.inl (by simp [adjust_item_price_arg, hl])
  | some r =>
    by_cases hp : p ≤ 0
    · exact Or.inl (by simp [adjust_item_price_arg, hl, hp])
    · exact Or.inr ⟨⟨r.Name, p, r.Quantity⟩,
        by simp [adjust_item_price_arg, hl, hp]⟩

theorem confirm_purchase_arg_shape (cart inv : Map) (u : List Char) :
    ((confirm_purchase_arg cart inv u).cart = cart ∧
      (confirm_purchase_arg cart inv u).inv = inv) ∨
    (checkCart inv cart = none ∧
      (confirm_purchase_arg cart inv u).cart = [] ∧
      (confirm_purchase_arg cart inv u).inv =
        removeZero (applyDecrements inv cart)) := by
  by_cases hemp : cart.isEmpty
  · exact Or.inl (by simp [confirm_purchase_arg, hemp])
  · cases hchk : checkCart inv cart with
    | some e => exact Or.inl (by simp [confirm_purchase_arg, hemp, hchk])
    | none =>
      exact Or.inr ⟨rfl, by simp [confirm_purchase_arg, hemp, hchk],
        by simp [confirm_purchase_arg, hemp, hchk]⟩

theorem applyOp_WF (s : St) (o : Op) (h : StWF s) : StWF (applyOp s o) := by
  obtain ⟨hc, hi⟩ := h
  cases o with
  | addToCart c q =>
    have hinv := add_to_cart_arg_inv_eq s.cart s.inv c q
    rcases add_to_cart_arg_cart_shape s.cart s.inv c q with hs | ⟨v, hs⟩ <;>
      exact ⟨by rw [applyOp, hs]; first
          | exact hc
          | exact keys_nodup_setEntry c v hc,
        by rw [applyOp, hinv]; exact hi⟩
  | manageCart c a nq =>
    have hinv := manage_cart_arg_inv_eq s.cart s.inv c a nq
    have h2 : (keys (manage_cart_arg s.cart s.inv c a nq).cart).Nodup := by
      rcases manage_cart_arg_cart_shape s.cart s.inv c a nq with hs | hs | ⟨v, hs⟩
      · rw [hs]; exact hc
      · rw [hs]; exact keys_nodup_eraseEntry c hc
      · rw [hs]; exact keys_nodup_setEntry c v hc
    exact ⟨h2, by rw [applyOp, hinv]; exact hi⟩
  | adjustQuantity c q =>
    have h2 : (keys (adjust_quantity_arg s.inv c q).inv).Nodup := by
      rcases adjust_quantity_arg_inv_shape s.inv c q with hs | ⟨v, hs⟩
      · rw [hs]; exact hi
      · rw [hs]; exact keys_nodup_setEntry c v hi
    exact ⟨hc, h2⟩
  | adjustPrice c p =>
    have h2 : (keys (adjust_item_price_arg s.inv c p).inv).Nodup := by
      rcases adjust_item_price_arg_inv_shape s.inv c p with hs | ⟨v, hs⟩
      · rw [hs]; exact hi
      · rw [hs]; exact keys_nodup_setEntry c v hi
    exact ⟨hc, h2⟩
  | confirmPurchase u =>
    rcases confirm_purchase_arg_shape s.cart s.inv u with ⟨h1, h2⟩ | ⟨_, h1, h2⟩
    · exact ⟨by rw [applyOp, h1]; exact hc, by rw [applyOp, h2]; exact hi⟩
    · refine ⟨by rw [applyOp, h1]; exact List.nodup_nil, ?_⟩
      rw [applyOp, h2]
      exact keys_nodup_removeZero (by rw [keys_applyDecrements]; exact hi)

theorem applyOp_invNonneg (s : St) (o : Op) (hwf : StWF s)
    (h : ∀ k r, lookupEntry s.inv k = some r → 0 ≤ r.Quantity) :
    ∀ k r, lookupEntry (applyOp s o).inv k = some r → 0 ≤ r.Quantity := by
  cases o with
  | addToCart c q =>
    intro k r hk
    simp only [applyOp] at hk
    rw [add_to_cart_arg_inv_eq] at hk
    exact h k r hk
  | manageCart c a nq =>
    intro k r hk
    simp only [applyOp] at hk
    rw [manage_cart_arg_inv_eq] at hk
    exact h k r hk
  | adjustQuantity c q =>
    intro k r hk
    simp only [applyOp] at hk
    cases hl : lookupEntry s.inv c with
    | none =>
      rw [show (adjust_quantity_arg s.inv c q).inv = s.inv from
        by simp [adjust_quantity_arg, hl]] at hk
      exact h k r hk
    | some r0 =>
      by_cases hq : q < 0
      · rw [show (adjust_quantity_arg s.inv c q).inv = s.inv from
          by simp [adjust_quantity_arg, hl, hq]] at hk
        exact h k r hk
      · rw [show (adjust_quantity_arg s.inv c q).inv =
            setEntry s.inv c ⟨r0.Name, r0.Price, q⟩ from
          by simp [adjust_quantity_arg, hl, hq],
          lookupEntry_setEntry] at hk
        by_cases hkc : k = c
        · rw [if_pos hkc] at hk
          have hrq := Option.some.inj hk
          subst hrq
          show 0 ≤ q
          omega
        · rw [if_neg hkc] at hk
          exact h k r hk
  | adjustPrice c p =>
    intro k r hk
    simp only [applyOp] at hk
    cases hl : lookupEntry s.inv c with
    | none =>
      rw [show (adjust_item_price_arg s.inv c p).inv = s.inv from
        by simp [adjust_item_price_arg, hl]] at hk
      exact h k r hk
    | some r0 =>
      by_cases hp : p ≤ 0
      · rw [show (adjust_item_price_arg s.inv c p).inv = s.inv from
          by simp [adjust_item_price_arg, hl, hp]] at hk
        exact h k r hk
      · rw [show (adjust_item_price_arg s.inv c p).inv =
            setEntry s.inv c ⟨r0.Name, p, r0.Quantity⟩ from
          by simp [adjust_item_price_arg, hl, hp],
          lookupEntry_setEntry] at hk
        by_cases hkc : k = c
        · rw [if_pos hkc] at hk
          have hrq := Option.some.inj hk
          subst hrq
          show 0 ≤ r0.Quantity
          subst hkc
          exact h k r0 hl
        · rw [if_neg hkc] at hk
          exact h k r hk
  | confirmPurchase u =>
    intro k r hk
    simp only [applyOp] at hk
    rcases confirm_purchase_arg_shape s.cart s.inv u with ⟨h1, h2⟩ | ⟨hchk, h1, h2⟩
    · rw [h2] at hk
      exact h k r hk
    · rw [h2] at hk
      have hnd2 : (keys (applyDecrements s.inv s.cart)).Nodup := by
        rw [keys_applyDecrements]
        exact hwf.2
      have hd : lookupEntry (applyDecrements s.inv s.cart) k = some r :=
        lookupEntry_eq_some_of_mem hnd2
          ((removeZero_sublist _).subset (mem_of_lookupEntry_eq_some hk))
      rw [lookupEntry_applyDecrements s.cart k s.inv hwf.1] at hd
      cases hi : lookupEntry s.inv k with
      | none =>
        rw [hi] at hd
        exact absurd hd (by simp)
      | some r0 =>
        rw [hi] at hd
        have hr : ({ r0 with Quantity := r0.Quantity - getQty s.cart k } :
            Record) = r := Option.some.inj hd
        have hge : 0 ≤ r0.Quantity := h k r0 hi
        have hok := ok_of_checkCart_none s.inv s.cart hchk
        subst hr
        show 0 ≤ r0.Quantity - getQty s.cart k
        cases hc : lookupEntry s.cart k with
        | none =>
          simp [getQty, hc]
          omega
        | some e =>
          have h2c := (hok (k, e) (mem_of_lookupEntry_eq_some hc)).2
          simp only [getQty, hi] at h2c
          simp only [getQty, hc]
          omega

theorem applyOp_cartLeInv (s : St) (o : Op) (hwf : StWF s)
    (ho : noQuantityReset o)
    (h : ∀ k e r, lookupEntry s.cart k = some e →
      lookupEntry s.inv k = some r → e.Quantity ≤ r.Quantity) :
    ∀ k e r, lookupEntry (applyOp s o).cart k = some e →
      lookupEntry (applyOp s o).inv k = some r → e.Quantity ≤ r.Quantity := by
  cases o with
  | addToCart c q =>
    intro k e r hk hr
    simp only [applyOp] at hk hr
    rw [add_to_cart_arg_inv_eq] at hr
    cases hl : lookupEntry s.inv c with
    | none =>
      rw [show (add_to_cart_arg s.cart s.inv c q).cart = s.cart from
        by simp [add_to_cart_arg, hl]] at hk
      exact h k e r hk hr
    | some invRec =>
      by_cases hq : q ≤ 0
      · rw [show (add_to_cart_arg s.cart s.inv c q).cart = s.cart from
          by simp [add_to_cart_arg, hl, hq]] at hk
        exact h k e r hk hr
      · by_cases hcap : getQty s.cart c + q > invRec.Quantity
        · rw [show (add_to_cart_arg s.cart s.inv c q).cart = s.cart from
            by simp [add_to_cart_arg, hl, hq, hcap]] at hk
          exact h k e r hk hr
        · cases hc : lookupEntry s.cart c with
          | none =>
            rw [show (add_to_cart_arg s.cart s.inv c q).cart =
                setEntry s.cart c ⟨invRec.Name, invRec.Price, q⟩ from
              by simp [add_to_cart_arg, hl, hq, hcap, hc],
              lookupEntry_setEntry] at hk
            by_cases hkc : k = c
            · rw [if_pos hkc] at hk
              have he := Option.some.inj hk
              subst he
              subst hkc
              rw [hl] at hr
              have hro := Option.some.inj hr
              subst hro
              show q ≤ invRec.Quantity
              simp only [getQty, hc] at hcap
              omega
            · rw [if_neg hkc] at hk
              exact h k e r hk hr
          | some e0 =>
            rw [show (add_to_cart_arg s.cart s.inv c q).cart =
                setEntry s.cart c ⟨e0.Name, e0.Price, e0.Quantity + q⟩ from
              by simp [add_to_cart_arg, hl, hq, hcap, hc],
              lookupEntry_setEntry] at hk
            by_cases hkc : k = c
            · rw [if_pos hkc] at hk
              have he := Option.some.inj hk
              subst he
              subst hkc
              rw [hl] at hr
              have hro := Option.some.inj hr
              subst hro
              show e0.Quantity + q ≤ invRec.Quantity
              simp only [getQty, hc] at hcap
              omega
            · rw [if_neg hkc] at hk
              exact h k e r hk hr
  | manageCart c a nq =>
    intro k e r hk hr
    simp only [applyOp] at hk hr
    rw [manage_cart_arg_inv_eq] at hr
    cases hl : lookupEntry s.cart c with
    | none =>
      rw [show (manage_cart_arg s.cart s.inv c a nq).cart = s.cart from
        by simp [manage_cart_arg, hl]] at hk
      exact h k e r hk hr
    | some e0 =>
      by_cases hrem : a = "remove"
      · rw [show (manage_cart_arg s.cart s.inv c a nq).cart =
            eraseEntry s.cart c from
          by simp [manage_cart_arg, hl, hrem]] at hk
        by_cases hkc : k = c
        · subst hkc
          rw [lookupEntry_eraseEntry_self k hwf.1] at hk
          exact absurd hk (by simp)
        · rw [lookupEntry_eraseEntry_ne s.cart c k hkc] at hk
          exact h k e r hk hr
      · by_cases hadj : a = "adjust"
        · cases nq with
          | none =>
            rw [show (manage_cart_arg s.cart s.inv c a none).cart = s.cart from
              by simp [manage_cart_arg, hl, hrem, hadj]] at hk
            exact h k e r hk hr
          | some n =>
            by_cases hn : n ≤ 0
            · rw [show (manage_cart_arg s.cart s.inv c a (some n)).cart =
                  s.cart from
                by simp [manage_cart_arg, hl, hrem, hadj, hn]] at hk
              exact h k e r hk hr
            · by_cases hcap : n > getQty s.inv c
              · rw [show (manage_cart_arg s.cart s.inv c a (some n)).cart =
                    s.cart from
                  by simp [manage_cart_arg, hl, hrem, hadj, hn, hcap]] at hk
                exact h k e r hk hr
              · rw [show (manage_cart_arg s.cart s.inv c a (some n)).cart =
                    setEntry s.cart c ⟨e0.Name, e0.Price, n⟩ from
                  by simp [manage_cart_arg, hl, hrem, hadj, hn, hcap],
                  lookupEntry_setEntry] at hk
                by_cases hkc : k = c
                · rw [if_pos hkc] at hk
                  have he := Option.some.inj hk
                  subst he
                  subst hkc
                  show n ≤ r.Quantity
                  simp only [getQty, hr] at hcap
                  omega
                · rw [if_neg hkc] at hk
                  exact h k e r hk hr
        · rw [show (manage_cart_arg s.cart s.inv c a nq).cart = s.cart from
            by simp [manage_cart_arg, hl, hrem, hadj]] at hk
          exact h k e r hk hr
  | adjustQuantity c q => exact ho.elim
  | adjustPrice c p =>
    intro k e r hk hr
    simp only [applyOp] at hk hr
    cases hl : lookupEntry s.inv c with
    | none =>
      rw [show (adjust_item_price_arg s.inv c p).inv = s.inv from
        by simp [adjust_item_price_arg, hl]] at hr
      exact h k e r hk hr
    | some r0 =>
      by_cases hp : p ≤ 0
      · rw [show (adjust_item_price_arg s.inv c p).inv = s.inv from
          by simp [adjust_item_price_arg, hl, hp]] at hr
        exact h k e r hk hr
      · rw [show (adjust_item_price_arg s.inv c p).inv =
            setEntry s.inv c ⟨r0.Name, p, r0.Quantity⟩ from
          by simp [adjust_item_price_arg, hl, hp],
          lookupEntry_setEntry] at hr
        by_cases hkc : k = c
        · rw [if_pos hkc] at hr
          have hro := Option.some.inj hr
          subst hro
          subst hkc
          show e.Quantity ≤ r0.Quantity
          exact h k e r0 hk hl
        · rw [if_neg hkc] at hr
          exact h k e r hk hr
  | confirmPurchase u =>
    intro k e r hk hr
    simp only [applyOp] at hk hr
    rcases confirm_purchase_arg_shape s.cart s.inv u with ⟨h1, h2⟩ | ⟨hchk, h1, h2⟩
    · rw [h1] at hk
      rw [h2] at hr
      exact h k e r hk hr
    · rw [h1] at hk
      exact absurd hk (by simp [lookupEntry])

/-- States reachable by any core operation preserve well-formedness and
non-negative stock. -/
theorem reach_preserves_WF_nonneg {init s : St}
    (hr : Reach (fun _ => True) init s) (hwf : StWF init)
    (h0 : ∀ k r, lookupEntry init.inv k = some r → 0 ≤ r.Quantity) :
    StWF s ∧ ∀ k r, lookupEntry s.inv k = some r → 0 ≤ r.Quantity := by
  induction hr with
  | refl => exact ⟨hwf, h0⟩
  | step o hr2 ha ih => exact ⟨applyOp_WF _ o ih.1, applyOp_invNonneg _ o ih.1 ih.2⟩

/-- States reachable without the owner's absolute quantity set preserve
well-formedness and the cart-below-stock invariant. -/
theorem reach_preserves_WF_cartLeInv {init s : St}
    (hr : Reach noQuantityReset init s) (hc : init.cart = []) (hwf : StWF init) :
    StWF s ∧ ∀ k e r, lookupEntry s.cart k = some e →
      lookupEntry s.inv k = some r → e.Quantity ≤ r.Quantity := by
  induction hr with
  | refl =>
    refine ⟨hwf, ?_⟩
    intro k e r hk _
    rw [hc] at hk
    exact absurd hk (by simp [lookupEntry])
  | step o hr2 ha ih =>
    exact ⟨applyOp_WF _ o ih.1, applyOp_cartLeInv _ o ih.1 ha ih.2⟩

/-- C5: from a well-formed initial state whose inventory quantities are all
non-negative, every state reachable by any sequence of core operations keeps
every inventory quantity non-negative; in particular `adjust_quantity_arg`
rejects negative quantities and leaves the store unchanged, and a successful
`confirm_purchase_arg` decrements only by cart quantities it has first
checked to be at most the current stock. -/
theorem c5_inventory_quantities_nonneg :
    (∀ init s, StWF init → (∀ p ∈ init.inv, 0 ≤ p.2.Quantity) →
      Reach (fun _ => True) init s →
      ∀ p ∈ s.inv, 0 ≤ p.2.Quantity) ∧
    (∀ inv c q r, lookupEntry inv c = some r → q < 0 →
      (adjust_quantity_arg inv c q).err =
        some (.valueError "Quantity cannot be negative") ∧
      (adjust_quantity_arg inv c q).inv = inv) ∧
    (∀ cart inv u, (confirm_purchase_arg cart inv u).err = none →
      ∀ k e, lookupEntry cart k = some e → e.Quantity ≤ getQty inv k) := by
  refine ⟨?_, ?_, ?_⟩
  · intro init s hwf h0 hr p hp
    obtain ⟨k, r⟩ := p
    have h0l : ∀ k r, lookupEntry init.inv k = some r → 0 ≤ r.Quantity :=
      fun k r hk => h0 (k, r) (mem_of_lookupEntry_eq_some hk)
    have hres := reach_preserves_WF_nonneg hr hwf h0l
    exact hres.2 k r (lookupEntry_eq_some_of_mem hres.1.2 hp)
  · intro inv c q r hl hq
    exact ⟨by simp [adjust_quantity_arg, hl, hq],
      by simp [adjust_quantity_arg, hl, hq]⟩
  · intro cart inv u herr k e hc
    by_cases hemp : cart.isEmpty
    · simp [confirm_purchase_arg, hemp] at herr
    · cases hchk : checkCart inv cart with
      | some e2 => simp [confirm_purchase_arg, hemp, hchk] at herr
      | none =>
        exact (ok_of_checkCart_none inv cart hchk (k, e)
          (mem_of_lookupEntry_eq_some hc)).2

/-- Witness for C5: after the owner sets item 1's stock to 0 the reachable
inventory still has a non-negative record, and setting stock to `-10` is
rejected without touching the store. -/
theorem c5_inventory_quantities_nonneg_witness :
    (0 : Int) ≤ ((1, (⟨"Water", 1, 0⟩ : Record)) : Int × Record).2.Quantity ∧
    (adjust_quantity_arg [(1, ⟨"Water", 1, 10⟩)] 1 (-10)).err =
      some (.valueError "Quantity cannot be negative") ∧
    (adjust_quantity_arg [(1, ⟨"Water", 1, 10⟩)] 1 (-10)).inv =
      [(1, ⟨"Water", 1, 10⟩)] := by
  refine ⟨?_, ?_, ?_⟩
  · exact c5_inventory_quantities_nonneg.1 ⟨[], [(1, ⟨"Water", 1, 5⟩)]⟩
      (applyOp ⟨[], [(1, ⟨"Water", 1, 5⟩)]⟩ (Op.adjustQuantity 1 0))
      ⟨by decide, by decide⟩ (by decide)
      (Reach.step (Op.adjustQuantity 1 0) Reach.refl trivial)
      (1, ⟨"Water", 1, 0⟩) (by decide)
  · exact (c5_inventory_quantities_nonneg.2.1 [(1, ⟨"Water", 1, 10⟩)] 1 (-10)
      ⟨"Water", 1, 10⟩ (by decide) (by decide)).1
  · exact (c5_inventory_quantities_nonneg.2.1 [(1, ⟨"Water", 1, 10⟩)] 1 (-10)
      ⟨"Water", 1, 10⟩ (by decide) (by decide)).2

/-- Counterexample to C3 as stated: from the valid initial state with 10
Water in stock and an empty cart, `add_to_cart_arg 1 5` followed by the core
operation `adjust_quantity_arg 1 3` reaches a state where the cart holds 5
Water but the inventory record for code 1 only has quantity 3, violating
`cart[code].quantity ≤ inventory[code].quantity`. -/
theorem c3_counterexample_quantity_reset_breaks_invariant :
    Reach (fun _ => True) ⟨[], [(1, ⟨"Water", 1, 10⟩)]⟩
      (applyOp (applyOp ⟨[], [(1, ⟨"Water", 1, 10⟩)]⟩ (Op.addToCart 1 5))
        (Op.adjustQuantity 1 3)) ∧
    StWF ⟨[], [(1, ⟨"Water", 1, 10⟩)]⟩ ∧
    (∀ p ∈ ([(1, ⟨"Water", 1, 10⟩)] : Map), 0 ≤ p.2.Quantity) ∧
    ¬ (∀ k e r,
        lookupEntry (applyOp (applyOp ⟨[], [(1, ⟨"Water", 1, 10⟩)]⟩
          (Op.addToCart 1 5)) (Op.adjustQuantity 1 3)).cart k = some e →
        lookupEntry (applyOp (applyOp ⟨[], [(1, ⟨"Water", 1, 10⟩)]⟩
          (Op.addToCart 1 5)) (Op.adjustQuantity 1 3)).inv k = some r →
        e.Quantity ≤ r.Quantity) := by
  refine ⟨Reach.step (Op.adjustQuantity 1 3)
      (Reach.step (Op.addToCart 1 5) Reach.refl trivial) trivial,
    ⟨by decide, by decide⟩, by decide, ?_⟩
  intro hinv
  have h5 := hinv 1 ⟨"Water", 1, 5⟩ ⟨"Water", 1, 3⟩ (by decide) (by decide)
  exact absurd h5 (by decide)

/-- C3 (amended): for every state reachable from an empty cart and a
well-formed initial inventory by sequences of the core operations other
than `adjust_quantity_arg` (i.e. `add_to_cart_arg`, `manage_cart_arg`,
`adjust_item_price_arg`, `confirm_purchase_arg`), every cart entry whose
code is still in inventory has cart quantity at most the inventory
quantity. -/
theorem c3_amended_cart_le_inventory :
    ∀ init s, init.cart = [] → StWF init →
      Reach noQuantityReset init s →
      ∀ k e r, lookupEntry s.cart k = some e →
        lookupEntry s.inv k = some r → e.Quantity ≤ r.Quantity := by
  intro init s hc hwf hr
  exact (reach_preserves_WF_cartLeInv hr hc hwf).2

/-- Witness for C3 (amended): after adding 5 Water against a stock of 10,
the reached cart entry respects the stock bound. -/
theorem c3_amended_cart_le_inventory_witness :
    (⟨"Water", 1, 5⟩ : Record).Quantity ≤ (⟨"Water", 1, 10⟩ : Record).Quantity :=
  c3_amended_cart_le_inventory ⟨[], [(1, ⟨"Water", 1, 10⟩)]⟩
    (applyOp ⟨[], [(1, ⟨"Water", 1, 10⟩)]⟩ (Op.addToCart 1 5))
    rfl ⟨by decide, by decide⟩
    (Reach.step (Op.addToCart 1 5) Reach.refl trivial)
    1 ⟨"Water", 1, 5⟩ ⟨"Water", 1, 10⟩ (by decide) (by decide)

end Vending
